import Mathlib

/-!
Verification development for the `RSoftlinking` plugin
(`src/plugins/rsoftlinking/__init__.py`): a reverse-soft-link reconciliation
engine.  The Python code is shallowly embedded below: paths are modelled at
two levels (raw strings, as the code manipulates them with `os.path`
functions, and parsed `PurePosixPath`-style values), the filesystem is a
finite map from parsed paths to nodes, and every fallible `os` operation
returns an explicit ok/raised result mirroring Python's raise/return
behaviour.
-/

set_option autoImplicit false

/-! ## Strings and paths

Python mixes plain strings (`os.path.dirname`, `os.path.commonprefix`,
`os.path.exists`) with `pathlib.Path` objects.  `NPath` is the parsed form of
a POSIX path exactly as `PurePosixPath` normalises it: an absolute flag plus
the list of components, where empty components and `.` components are
dropped (pathlib keeps `..` components; so do we). -/

/-- Split a character list at every occurrence of `c`, like Python's
`str.split`: `"/a".split("/") == ["", "a"]`. -/
def splitOnChar (c : Char) : List Char → List (List Char)
  | [] => [[]]
  | a :: rest =>
    let r := splitOnChar c rest
    if a = c then [] :: r
    else
      match r with
      | g :: gs => (a :: g) :: gs
      | [] => [[a]]

/-- A component survives `PurePosixPath` parsing iff it is neither empty
nor a lone dot. -/
def okSeg (s : String) : Bool := decide (s ≠ "" ∧ s ≠ ".")

/-- True iff the character list begins with a slash (an absolute POSIX
path). -/
def absStart : List Char → Bool
  | c :: _ => decide (c = '/')
  | [] => false

/-- A parsed POSIX path in the normal form `PurePosixPath` uses for `==`:
absolute flag plus retained components. -/
structure NPath where
  abs : Bool
  segs : List String
  deriving DecidableEq, Repr

/-- Parse a string the way `pathlib.Path` does on POSIX: split on `/`,
drop empty and `.` components, record absoluteness. -/
def strToNPath (s : String) : NPath :=
  ⟨absStart s.data, ((splitOnChar '/' s.data).map (fun cs => String.mk cs)).filter okSeg⟩

/-- Join components with slashes. -/
def joinSegs : List String → String
  | [] => ""
  | [s] => s
  | s :: rest => s ++ "/" ++ joinSegs rest

/-- `str(path)` for a parsed path, as `PurePosixPath.__str__` renders it
(`"."` for the empty relative path, `"/"` for the root). -/
def npathToString (p : NPath) : String :=
  if p.abs then "/" ++ joinSegs p.segs
  else if p.segs = [] then "." else joinSegs p.segs

/-- Longest common prefix of two character lists. -/
def lcpChars : List Char → List Char → List Char
  | a :: as, b :: bs => if a = b then a :: lcpChars as bs else []
  | _, _ => []

/-- `os.path.commonprefix` on two operands: the longest common *string*
prefix, computed character by character (the Python docs warn that this may
split a path in the middle of a component). -/
def lcpString (a b : String) : String := String.mk (lcpChars a.data b.data)

/-- The characters up to and including the last slash (`p[:p.rfind('/')+1]`),
empty if there is no slash. -/
def headUptoLastSlash (cs : List Char) : List Char :=
  (cs.reverse.dropWhile (fun c => decide (c ≠ '/'))).reverse

/-- Strip trailing slashes. -/
def rstripSlashes (cs : List Char) : List Char :=
  (cs.reverse.dropWhile (fun c => decide (c = '/'))).reverse

/-- `os.path.dirname`, transcribed from `posixpath.dirname`: take the part
up to the last slash; if that head is nonempty and not all slashes, strip
trailing slashes. -/
def dirname (s : String) : String :=
  let head := headUptoLastSlash s.data
  if head ≠ [] ∧ ¬ head.all (fun c => decide (c = '/')) then String.mk (rstripSlashes head)
  else String.mk head

/-- `PurePosixPath.__truediv__` with a string operand: parse the operand; an
absolute operand replaces the whole path, otherwise its components are
appended. -/
def pathJoin (p : NPath) (s : String) : NPath :=
  let q := strToNPath s
  if q.abs then q else ⟨p.abs, p.segs ++ q.segs⟩

/-- `PurePosixPath.name`: the last component, or `""` for a root/empty
path. -/
def npathName (p : NPath) : String := (p.segs.getLast?).getD ""

/-- The chain of ancestors of a parsed path, shortest first, ending with the
path itself.  `os.makedirs` creates exactly the missing directories along
this chain. -/
def ancestorChain (p : NPath) : List NPath :=
  (List.range (p.segs.length + 1)).map (fun i => ⟨p.abs, p.segs.take i⟩)

/-! ## Python values

The code compares `dst.resolve()` (a `Path`) against `src` (a `str`) with
`==`.  `PurePath.__eq__` returns `NotImplemented` for a non-`Path` operand
and `str.__eq__` returns `NotImplemented` for a non-`str` operand, so
Python falls back to identity and the comparison evaluates to `False` for
every pair of distinct objects.  `PyVal`/`pyEq` embed exactly this
cross-type equality semantics. -/

/-- A Python value that is either a `str` or a `pathlib.Path`. -/
inductive PyVal where
  | vstr (s : String)
  | vpath (p : NPath)
  deriving DecidableEq, Repr

/-- Python `==` on `str`/`Path` operands: componentwise within one type,
`False` across types (both sides return `NotImplemented`). -/
def pyEq : PyVal → PyVal → Bool
  | .vstr a, .vstr b => decide (a = b)
  | .vpath a, .vpath b => decide (a = b)
  | _, _ => false

/-- An argument that may arrive either as a raw string or as an
already-constructed `Path` (the code passes both: event paths are strings,
`dst / filename` is a `Path`). -/
inductive PathArg where
  | ofStr (s : String)
  | ofPath (p : NPath)
  deriving DecidableEq, Repr

/-- `Path(x)`: parse a string, leave a `Path` unchanged. -/
def PathArg.toNPath : PathArg → NPath
  | .ofStr s => strToNPath s
  | .ofPath p => p

/-! ## Filesystem model

A finite map from parsed paths to nodes.  A symbolic link stores its target
as the raw string `os.symlink` wrote (the code passes the `Path` object, so
the stored string is its `str()` form).  Lookup is `lstat`-like: it does not
follow links.  `resolveN` follows whole-path symlink chains with fuel
(the kernel's ELOOP limit); `exists`/`is_file`/`is_dir` follow links as
their `os.path`/`pathlib` counterparts do, `is_symlink` does not. -/

/-- A filesystem object: regular file, directory, or symbolic link with a
raw string target. -/
inductive Node where
  | file
  | dir
  | symlink (target : String)
  deriving DecidableEq, Repr

/-- A filesystem: a finite association of parsed paths to nodes. -/
structure FS where
  entries : List (NPath × Node)
  deriving DecidableEq, Repr

/-- `lstat`-style lookup: the node stored at exactly this path, not
following links. -/
def FS.lookup (fs : FS) (p : NPath) : Option Node :=
  (fs.entries.find? (fun e => decide (e.1 = p))).map (fun e => e.2)

/-- Store a node at a path, replacing any previous entry. -/
def FS.set (fs : FS) (p : NPath) (n : Node) : FS :=
  ⟨(p, n) :: fs.entries.filter (fun e => !decide (e.1 = p))⟩

/-- Remove the entry at a path. -/
def FS.erase (fs : FS) (p : NPath) : FS :=
  ⟨fs.entries.filter (fun e => !decide (e.1 = p))⟩

/-- Follow the chain of symbolic links starting at `p`, with fuel; `none`
models the kernel giving up with `ELOOP`. -/
def resolveN (fs : FS) : Nat → NPath → Option NPath
  | 0, _ => none
  | fuel + 1, p =>
    match fs.lookup p with
    | some (.symlink t) => resolveN fs fuel (strToNPath t)
    | _ => some p

/-- `Path.resolve()`: follow symlinks with the kernel's loop bound. -/
def FS.resolve (fs : FS) (p : NPath) : Option NPath := resolveN fs 40 p

/-- `Path.resolve()` where resolution is known to succeed (guarded by a
previous `exists()` in every use below); defaults to `p` on the unreachable
fuel-exhaustion branch. -/
def FS.resolveD (fs : FS) (p : NPath) : NPath := (fs.resolve p).getD p

/-- `os.path.exists` / `Path.exists()`: follows symlinks, `False` for a
dangling link or on `ELOOP`. -/
def FS.exists (fs : FS) (p : NPath) : Bool :=
  match fs.resolve p with
  | some q => (fs.lookup q).isSome
  | none => false

/-- `Path.is_file()`: follows symlinks. -/
def FS.is_file (fs : FS) (p : NPath) : Bool :=
  match fs.resolve p with
  | some q => decide (fs.lookup q = some .file)
  | none => false

/-- `Path.is_dir()`: follows symlinks. -/
def FS.is_dir (fs : FS) (p : NPath) : Bool :=
  match fs.resolve p with
  | some q => decide (fs.lookup q = some .dir)
  | none => false

/-- `Path.is_symlink()`: does not follow. -/
def FS.is_symlink (fs : FS) (p : NPath) : Bool :=
  match fs.lookup p with
  | some (.symlink _) => true
  | _ => false

/-! ## Fallible operations

Python signals filesystem failures by raising `OSError` subclasses; the code
never catches them, so a raise propagates out of `_rsoftlink` to its caller.
`FsOut` is the result of a computation that either returns a value together
with the final filesystem, or raises. -/

/-- An `OSError` subclass relevant to the operations the code performs. -/
inductive IOErr where
  | fileExists
  | fileNotFound
  | isADirectory
  deriving DecidableEq, Repr

/-- Outcome of a stateful fallible computation: a value plus the resulting
filesystem, or an uncaught exception. -/
inductive FsOut (α : Type) where
  | ok (fs : FS) (val : α)
  | raised (e : IOErr)
  deriving DecidableEq, Repr

/-- One step of `os.makedirs(..., exist_ok=True)` along the ancestor chain:
an existing directory (possibly via a link) is kept, a missing entry is
created as a directory, anything else raises `FileExistsError`. -/
def mkdirsGo : FS → List NPath → FsOut Unit
  | fs, [] => .ok fs ()
  | fs, p :: rest =>
    if fs.is_dir p then mkdirsGo fs rest
    else
      match fs.lookup p with
      | none => mkdirsGo (fs.set p .dir) rest
      | some _ => .raised .fileExists

/-- `os.makedirs(d, exist_ok=True)`. -/
def os_makedirs (fs : FS) (d : NPath) : FsOut Unit :=
  mkdirsGo fs (ancestorChain d)

/-- `os.remove`: removes a file or a symlink itself; raises on a missing
path or on a directory. -/
def os_remove (fs : FS) (p : NPath) : FsOut Unit :=
  match fs.lookup p with
  | none => .raised .fileNotFound
  | some .dir => .raised .isADirectory
  | some _ => .ok (fs.erase p) ()

/-- `os.symlink(target, link)`: raises `FileExistsError` when anything,
including a dangling link, already occupies `link`; stores the `str()` form
of the target. -/
def os_symlink (fs : FS) (target : NPath) (link : NPath) : FsOut Unit :=
  if (fs.lookup link).isSome then .raised .fileExists
  else .ok (fs.set link (.symlink (npathToString target))) ()

/-! ## Plugin configuration and the core reconciler

`_rsoftlink` (source lines 100-132) is transcribed gate by gate.  The
"outcome" labels name which of the code's mutually exclusive exit branches
was taken; each branch is observable in the source through its distinct log
message and its filesystem effect. -/

/-- The plugin configuration fields the reconciliation core reads
(`_enabled`, `_enforced`, `_enabled_dirs`). -/
structure Config where
  enabled : Bool
  enforced : Bool
  enabled_dirs : List NPath
  deriving DecidableEq, Repr

/-- The scope condition of lines 102-107: the code returns early iff
`self._enabled_dirs` is nonempty and no configured directory `x` satisfies
`Path(os.path.commonprefix((x, src_dir))) == x`; hence a source passes iff
the list is empty or some `x` satisfies that comparison. -/
def scopeAllows (enabled_dirs : List NPath) (src_dir : String) : Bool :=
  enabled_dirs.isEmpty ||
    enabled_dirs.any (fun x => decide (strToNPath (lcpString (npathToString x) src_dir) = x))

/-- `_is_valid_link` (lines 87-98): `src` and `dst` are converted with
`Path(...)`, then the four conditions are checked with short-circuit `and`.
`srcp.resolve()` can only raise on a symlink loop, which the preceding
`srcp.exists()` already rules out, so the resolve comparison is embedded as
a boolean on the (then guaranteed) successful resolution.  The function
performs reads only: it takes the filesystem and returns a `Bool`, with no
modified filesystem to return. -/
def _is_valid_link (fs : FS) (src : String) (dst : PathArg) : Bool :=
  let srcp := strToNPath src
  let dstp := dst.toNPath
  fs.exists srcp && fs.is_symlink srcp &&
    decide (fs.resolve srcp = some dstp) && fs.exists dstp

/-- The exit branches of `_rsoftlink`, one per distinct return point /
log message of lines 100-132. -/
inductive Outcome where
  | created
  | alreadyValid
  | skippedOutOfScope
  | skippedDestinationMissing
  | skippedCycle
  | skippedConflictNotEnforced
  | repaired
  deriving DecidableEq, Repr

/-- `_rsoftlink` (lines 100-132), transcribed in order: scope gate,
destination gate (`dst.exists() and dst.is_file()`), cycle gate
(`dst.is_symlink() and dst.resolve() == src` — note `src` is a `str` here,
so the `==` is the cross-type `pyEq`), `os.makedirs(src_dir, exist_ok=True)`,
then the existing-source branch, falling through to `os.symlink(dst, src)`.
Raised `OSError`s propagate: the source has no exception handler. -/
def _rsoftlink (cfg : Config) (fs : FS) (src : String) (dst : PathArg) : FsOut Outcome :=
  let src_dir := dirname src
  if !(scopeAllows cfg.enabled_dirs src_dir) then .ok fs .skippedOutOfScope
  else
    let dstP := dst.toNPath
    if !(fs.exists dstP && fs.is_file dstP) then .ok fs .skippedDestinationMissing
    else if fs.is_symlink dstP && pyEq (.vpath (fs.resolveD dstP)) (.vstr src) then
      .ok fs .skippedCycle
    else
      match os_makedirs fs (strToNPath src_dir) with
      | .raised e => .raised e
      | .ok fs1 _ =>
        let srcP := strToNPath src
        if fs1.exists srcP then
          if _is_valid_link fs1 src (.ofPath dstP) then .ok fs1 .alreadyValid
          else if !cfg.enforced then .ok fs1 .skippedConflictNotEnforced
          else
            match os_remove fs1 srcP with
            | .raised e => .raised e
            | .ok fs2 _ =>
              match os_symlink fs2 dstP srcP with
              | .raised e => .raised e
              | .ok fs3 _ => .ok fs3 .repaired
        else
          match os_symlink fs1 dstP srcP with
          | .raised e => .raised e
          | .ok fs2 _ => .ok fs2 .created

/-! ## Event-triggered entry point (lines 160-172) -/

/-- The payload of a transfer-complete event, per the external interface:
a success flag and the two ordered path lists. -/
structure TEvent where
  success : Bool
  file_list : List String
  file_list_new : List String
  deriving DecidableEq, Repr

/-- The exit branches of `transfer_complete_event_handler`. -/
inductive HOutcome where
  | disabled
  | transferFailed
  | malformedEvent
  | processed (outs : List Outcome)
  deriving DecidableEq, Repr

/-- The handler's loop `for src, dst in zip(file_list, file_list_new):
self._rsoftlink(src, dst)`: each pair is processed in order; an uncaught
raise from one call aborts the remaining iterations. -/
def runPairs (cfg : Config) : FS → List (String × String) → FsOut (List Outcome)
  | fs, [] => .ok fs []
  | fs, (s, d) :: rest =>
    match _rsoftlink cfg fs s (.ofStr d) with
    | .raised e => .raised e
    | .ok fs1 o =>
      match runPairs cfg fs1 rest with
      | .raised e => .raised e
      | .ok fs2 os => .ok fs2 (o :: os)

/-- `transfer_complete_event_handler` (lines 160-172): return if the plugin
is disabled; return if the transfer failed; return if the two lists have
different lengths; otherwise reconcile each zipped pair. -/
def transfer_complete_event_handler (cfg : Config) (fs : FS) (ev : TEvent) :
    FsOut HOutcome :=
  if !cfg.enabled then .ok fs .disabled
  else if !ev.success then .ok fs .transferFailed
  else if ev.file_list.length ≠ ev.file_list_new.length then .ok fs .malformedEvent
  else
    match runPairs cfg fs (ev.file_list.zip ev.file_list_new) with
    | .raised e => .raised e
    | .ok fs1 os => .ok fs1 (.processed os)

/-! ## Transfer records, expansion and the scan driver (lines 134-158) -/

/-- A transfer-history record as the scan reads it.  `files` is the list
`json.loads(transfer.files)` yields; `status` is the success filter column
the store is queried with. -/
structure TransferRecord where
  src : String
  dest : String
  files : List String
  status : Bool
  deriving DecidableEq, Repr

/-- What happened to one record during a scan: its per-file reconcile
outcomes, or the "历史记录数据无法识别" malformed warning. -/
inductive RecordResult where
  | handled (outs : List Outcome)
  | malformed
  deriving DecidableEq, Repr

/-- Directory mode: `for f in files: self._rsoftlink(f, dst / Path(f).name)`
with `dst` the parsed destination directory. -/
def runFiles (cfg : Config) (dst : NPath) : FS → List String → FsOut (List Outcome)
  | fs, [] => .ok fs []
  | fs, f :: rest =>
    match _rsoftlink cfg fs f (.ofPath (pathJoin dst (npathName (strToNPath f)))) with
    | .raised e => .raised e
    | .ok fs1 o =>
      match runFiles cfg dst fs1 rest with
      | .raised e => .raised e
      | .ok fs2 os => .ok fs2 (o :: os)

/-- The per-record body of `_active_probe` (lines 145-156): single-file mode
when `len(files) == 1 and files[0] == transfer.src`; directory mode when
`Path(transfer.src).is_dir() and Path(transfer.dest).is_dir()`; otherwise
the record is logged as unrecognisable and skipped. -/
def processRecord (cfg : Config) (fs : FS) (r : TransferRecord) : FsOut RecordResult :=
  if r.files.length = 1 ∧ r.files.head? = some r.src then
    match _rsoftlink cfg fs r.src (.ofStr r.dest) with
    | .raised e => .raised e
    | .ok fs1 o => .ok fs1 (.handled [o])
  else
    let src := strToNPath r.src
    let dst := strToNPath r.dest
    if fs.is_dir src && fs.is_dir dst then
      match runFiles cfg dst fs r.files with
      | .raised e => .raised e
      | .ok fs1 os => .ok fs1 (.handled os)
    else .ok fs .malformed

/-- The pure expansion of one record into link requests, following the same
branch conditions as `processRecord`: the requests are exactly the
`(src, dst)` argument pairs the per-record body passes to `_rsoftlink`. -/
inductive ExpandResult where
  | requests (rs : List (String × PathArg))
  | malformed
  deriving DecidableEq, Repr

/-- Expansion of a record into the `_rsoftlink` argument pairs of
lines 145-156. -/
def expandRecord (fs : FS) (r : TransferRecord) : ExpandResult :=
  if r.files.length = 1 ∧ r.files.head? = some r.src then
    .requests [(r.src, .ofStr r.dest)]
  else
    let src := strToNPath r.src
    let dst := strToNPath r.dest
    if fs.is_dir src && fs.is_dir dst then
      .requests (r.files.map (fun f => (f, .ofPath (pathJoin dst (npathName (strToNPath f))))))
    else .malformed

/-- Process a page of records in order, recording which record got which
result; an uncaught raise aborts the rest of the page. -/
def processRecords (cfg : Config) : FS → List TransferRecord →
    FsOut (List (TransferRecord × RecordResult))
  | fs, [] => .ok fs []
  | fs, r :: rest =>
    match processRecord cfg fs r with
    | .raised e => .raised e
    | .ok fs1 res =>
      match processRecords cfg fs1 rest with
      | .raised e => .raised e
      | .ok fs2 others => .ok fs2 ((r, res) :: others)

/-- Modelled from the spec: the external transfer-history store's
total-count query (`TransferHistory.count(session, True)` is not part of
this repository).  Per the interface section it counts the records with the
given status. -/
def TransferHistory.count (store : List TransferRecord) (status : Bool) : Nat :=
  (store.filter (fun r => decide (r.status = status))).length

/-- Modelled from the spec: the external store's paginated read
(`TransferHistory.list_by_page(session, status, page)` is not part of this
repository).  Pages are 1-indexed runs of `pageSize` status-filtered
records; the page size is owned by the store. -/
def TransferHistory.list_by_page (store : List TransferRecord) (pageSize : Nat)
    (status : Bool) (page : Nat) : List TransferRecord :=
  (((store.filter (fun r => decide (r.status = status))).drop ((page - 1) * pageSize)).take
    pageSize)

/-- The `while counts: ... page += 1; counts -= 1` loop of `_active_probe`
(lines 140-158): `counts` starts at the total record count and is
decremented once per processed page, so the loop visits pages
`1 .. counts`. -/
def probeGo (cfg : Config) (store : List TransferRecord) (pageSize : Nat) :
    Nat → Nat → FS → FsOut (List (TransferRecord × RecordResult))
  | 0, _, fs => .ok fs []
  | counts + 1, page, fs =>
    match processRecords cfg fs (TransferHistory.list_by_page store pageSize true page) with
    | .raised e => .raised e
    | .ok fs1 rs =>
      match probeGo cfg store pageSize counts (page + 1) fs1 with
      | .raised e => .raised e
      | .ok fs2 more => .ok fs2 (rs ++ more)

/-- `_active_probe` (lines 134-158): snapshot the status-true count, then
page through the store from page 1, reconciling every record of every
page. -/
def _active_probe (cfg : Config) (store : List TransferRecord) (pageSize : Nat)
    (fs : FS) : FsOut (List (TransferRecord × RecordResult)) :=
  probeGo cfg store pageSize (TransferHistory.count store true) 1 fs

/-! ## Basic lemmas about the filesystem model -/

theorem find?_filter_ne (l : List (NPath × Node)) (p q : NPath) (hqp : q ≠ p) :
    (l.filter (fun e => !decide (e.1 = p))).find? (fun e => decide (e.1 = q)) =
      l.find? (fun e => decide (e.1 = q)) := by
  induction l with
  | nil => rfl
  | cons a l ih =>
    by_cases hap : a.1 = p
    · have hne : a.1 ≠ q := fun h => hqp (h ▸ hap)
      rw [List.filter_cons_of_neg (by simp [hap]), List.find?_cons_of_neg _ (by simp [hne]), ih]
    · rw [List.filter_cons_of_pos (by simp [hap])]
      by_cases haq : a.1 = q
      · rw [List.find?_cons_of_pos _ (by simp [haq]), List.find?_cons_of_pos _ (by simp [haq])]
      · rw [List.find?_cons_of_neg _ (by simp [haq]), List.find?_cons_of_neg _ (by simp [haq]),
          ih]

theorem lookup_set (fs : FS) (p : NPath) (n : Node) (q : NPath) :
    (fs.set p n).lookup q = if q = p then some n else fs.lookup q := by
  by_cases hqp : q = p
  · subst hqp
    simp only [FS.set, FS.lookup, if_pos rfl]
    rw [List.find?_cons_of_pos _ (by simp)]
    rfl
  · simp only [FS.set, FS.lookup, if_neg hqp]
    rw [List.find?_cons_of_neg _ (by simp [Ne.symm hqp]), find?_filter_ne _ _ _ hqp]

theorem resolveN_succ (fs : FS) (n : Nat) (p : NPath) :
    resolveN fs (n + 1) p =
      (match fs.lookup p with
       | some (.symlink t) => resolveN fs n (strToNPath t)
       | _ => some p) := rfl

theorem resolve_of_none {fs : FS} {p : NPath} (h : fs.lookup p = none) :
    fs.resolve p = some p := by
  rw [FS.resolve, show (40 : Nat) = 39 + 1 from rfl, resolveN_succ]
  simp [h]

theorem resolve_of_file {fs : FS} {p : NPath} (h : fs.lookup p = some .file) :
    fs.resolve p = some p := by
  rw [FS.resolve, show (40 : Nat) = 39 + 1 from rfl, resolveN_succ]
  simp [h]

theorem resolve_of_dir {fs : FS} {p : NPath} (h : fs.lookup p = some .dir) :
    fs.resolve p = some p := by
  rw [FS.resolve, show (40 : Nat) = 39 + 1 from rfl, resolveN_succ]
  simp [h]

theorem resolve_link_to_file {fs : FS} {p : NPath} {t : String}
    (h1 : fs.lookup p = some (.symlink t)) (h2 : fs.lookup (strToNPath t) = some .file) :
    fs.resolve p = some (strToNPath t) := by
  rw [FS.resolve, show (40 : Nat) = 39 + 1 from rfl, resolveN_succ]
  simp only [h1]
  rw [show (39 : Nat) = 38 + 1 from rfl, resolveN_succ]
  simp [h2]

theorem exists_of_file {fs : FS} {p : NPath} (h : fs.lookup p = some .file) :
    fs.exists p = true := by
  rw [FS.exists, resolve_of_file h]
  simp [h]

theorem exists_of_dir {fs : FS} {p : NPath} (h : fs.lookup p = some .dir) :
    fs.exists p = true := by
  rw [FS.exists, resolve_of_dir h]
  simp [h]

theorem exists_of_none {fs : FS} {p : NPath} (h : fs.lookup p = none) :
    fs.exists p = false := by
  rw [FS.exists, resolve_of_none h]
  simp [h]

theorem exists_link_to_file {fs : FS} {p : NPath} {t : String}
    (h1 : fs.lookup p = some (.symlink t)) (h2 : fs.lookup (strToNPath t) = some .file) :
    fs.exists p = true := by
  rw [FS.exists, resolve_link_to_file h1 h2]
  simp [h2]

theorem is_file_of_file {fs : FS} {p : NPath} (h : fs.lookup p = some .file) :
    fs.is_file p = true := by
  rw [FS.is_file, resolve_of_file h]
  simp [h]

theorem is_dir_of_dir {fs : FS} {p : NPath} (h : fs.lookup p = some .dir) :
    fs.is_dir p = true := by
  rw [FS.is_dir, resolve_of_dir h]
  simp [h]

theorem is_dir_of_none {fs : FS} {p : NPath} (h : fs.lookup p = none) :
    fs.is_dir p = false := by
  rw [FS.is_dir, resolve_of_none h]
  simp [h]

theorem is_symlink_of_file {fs : FS} {p : NPath} (h : fs.lookup p = some .file) :
    fs.is_symlink p = false := by
  rw [FS.is_symlink, h]

theorem is_symlink_of_link {fs : FS} {p : NPath} {t : String}
    (h : fs.lookup p = some (.symlink t)) : fs.is_symlink p = true := by
  rw [FS.is_symlink, h]

/-! ## Lemmas about `os.makedirs` -/

theorem mkdirsGo_ok :
    ∀ (ps : List NPath) (fs : FS),
      (∀ p ∈ ps, fs.lookup p = none ∨ fs.lookup p = some .dir) →
      ∃ fs1, mkdirsGo fs ps = .ok fs1 () ∧
        (∀ p ∈ ps, fs1.lookup p = some .dir) ∧
        (∀ q, (∀ p ∈ ps, q ≠ p) → fs1.lookup q = fs.lookup q) ∧
        (∀ q, fs1.lookup q = fs.lookup q ∨ fs1.lookup q = some .dir)
  | [], fs, _ => ⟨fs, rfl, by simp, fun _ _ => rfl, fun _ => Or.inl rfl⟩
  | p :: rest, fs, H => by
    rcases H p (List.mem_cons_self p rest) with hp | hp
    · have hdir : fs.is_dir p = false := is_dir_of_none hp
      have Hrest : ∀ r ∈ rest,
          (fs.set p .dir).lookup r = none ∨ (fs.set p .dir).lookup r = some .dir := by
        intro r hr
        rw [lookup_set]
        by_cases hrp : r = p
        · simp [hrp]
        · simp only [if_neg hrp]
          exact H r (List.mem_cons_of_mem _ hr)
      obtain ⟨fs1, heq, hall, hout, hor⟩ := mkdirsGo_ok rest (fs.set p .dir) Hrest
      refine ⟨fs1, ?_, ?_, ?_, ?_⟩
      · simp only [mkdirsGo, hdir, Bool.false_eq_true, if_false, hp]
        exact heq
      · intro r hr
        rcases List.mem_cons.mp hr with hrp | hrr
        · subst hrp
          rcases hor r with h | h
          · rw [h, lookup_set, if_pos rfl]
          · exact h
        · exact hall r hrr
      · intro q hq
        rw [hout q (fun r hr => hq r (List.mem_cons_of_mem _ hr)), lookup_set,
          if_neg (hq p (List.mem_cons_self p rest))]
      · intro q
        rcases hor q with h | h
        · rw [h, lookup_set]
          by_cases hqp : q = p
          · simp [hqp]
          · simp [hqp]
        · exact Or.inr h
    · have hdir : fs.is_dir p = true := is_dir_of_dir hp
      have Hrest : ∀ r ∈ rest, fs.lookup r = none ∨ fs.lookup r = some .dir :=
        fun r hr => H r (List.mem_cons_of_mem _ hr)
      obtain ⟨fs1, heq, hall, hout, hor⟩ := mkdirsGo_ok rest fs Hrest
      refine ⟨fs1, ?_, ?_, ?_, ?_⟩
      · simp only [mkdirsGo, hdir, if_true]
        exact heq
      · intro r hr
        rcases List.mem_cons.mp hr with hrp | hrr
        · subst hrp
          rcases hor r with h | h
          · rw [h, hp]
          · exact h
        · exact hall r hrr
      · intro q hq
        exact hout q (fun r hr => hq r (List.mem_cons_of_mem _ hr))
      · exact hor

theorem mkdirsGo_noop :
    ∀ (ps : List NPath) (fs : FS),
      (∀ p ∈ ps, fs.lookup p = some .dir) → mkdirsGo fs ps = .ok fs ()
  | [], _, _ => rfl
  | p :: rest, fs, H => by
    have hdir : fs.is_dir p = true := is_dir_of_dir (H p (List.mem_cons_self p rest))
    simp only [mkdirsGo, hdir, if_true]
    exact mkdirsGo_noop rest fs (fun r hr => H r (List.mem_cons_of_mem _ hr))

/-! ## Lemmas about batch processing -/

theorem runPairs_append_raised (cfg : Config) :
    ∀ (ps : List (String × String)) (fs fs1 : FS) (os : List Outcome)
      (s d : String) (qs : List (String × String)) (e : IOErr),
      runPairs cfg fs ps = .ok fs1 os →
      _rsoftlink cfg fs1 s (.ofStr d) = .raised e →
      runPairs cfg fs (ps ++ (s, d) :: qs) = .raised e
  | [], fs, fs1, os, s, d, qs, e, h1, h2 => by
    simp only [runPairs] at h1
    cases h1
    simp only [List.nil_append, runPairs, h2]
  | (a, b) :: rest, fs, fs1, os, s, d, qs, e, h1, h2 => by
    simp only [runPairs] at h1
    cases hab : _rsoftlink cfg fs a (.ofStr b) with
    | raised e2 => simp only [hab] at h1; exact FsOut.noConfusion h1
    | ok fsa oa =>
      simp only [hab] at h1
      cases hr : runPairs cfg fsa rest with
      | raised e2 => simp only [hr] at h1; exact FsOut.noConfusion h1
      | ok fsb osb =>
        simp only [hr] at h1
        cases h1
        have hrec := runPairs_append_raised cfg rest fsa fs1 osb s d qs e hr h2
        simp only [List.cons_append, runPairs, hab]
        rw [List.append_eq, hrec]

theorem runPairs_length (cfg : Config) :
    ∀ (ps : List (String × String)) (fs fs1 : FS) (os : List Outcome),
      runPairs cfg fs ps = .ok fs1 os → os.length = ps.length
  | [], fs, fs1, os, h => by
    simp only [runPairs] at h
    cases h
    rfl
  | (a, b) :: rest, fs, fs1, os, h => by
    simp only [runPairs] at h
    cases hab : _rsoftlink cfg fs a (.ofStr b) with
    | raised e2 => simp only [hab] at h; exact FsOut.noConfusion h
    | ok fsa oa =>
      simp only [hab] at h
      cases hr : runPairs cfg fsa rest with
      | raised e2 => simp only [hr] at h; exact FsOut.noConfusion h
      | ok fsb osb =>
        simp only [hr] at h
        cases h
        simp only [List.length_cons]
        rw [runPairs_length cfg rest fsa fs1 osb hr]

theorem processRecords_fst (cfg : Config) :
    ∀ (rs : List TransferRecord) (fs fs1 : FS)
      (out : List (TransferRecord × RecordResult)),
      processRecords cfg fs rs = .ok fs1 out → out.map Prod.fst = rs
  | [], fs, fs1, out, h => by
    simp only [processRecords] at h
    cases h
    rfl
  | r :: rest, fs, fs1, out, h => by
    simp only [processRecords] at h
    cases hr : processRecord cfg fs r with
    | raised e => simp only [hr] at h; exact FsOut.noConfusion h
    | ok fsa res =>
      simp only [hr] at h
      cases hrest : processRecords cfg fsa rest with
      | raised e => simp only [hrest] at h; exact FsOut.noConfusion h
      | ok fsb others =>
        simp only [hrest] at h
        cases h
        simp only [List.map_cons]
        rw [processRecords_fst cfg rest fsa fs1 others hrest]

theorem probeGo_visits (cfg : Config) (store : List TransferRecord) (k : Nat) :
    ∀ (n page : Nat) (fs fs1 : FS) (out : List (TransferRecord × RecordResult)),
      1 ≤ page →
      probeGo cfg store k n page fs = .ok fs1 out →
      out.map Prod.fst =
        ((store.filter (fun r => decide (r.status = true))).drop ((page - 1) * k)).take (n * k)
  | 0, page, fs, fs1, out, hpage, h => by
    simp only [probeGo] at h
    cases h
    simp
  | n + 1, page, fs, fs1, out, hpage, h => by
    simp only [probeGo] at h
    cases hrec : processRecords cfg fs (TransferHistory.list_by_page store k true page) with
    | raised e => simp only [hrec] at h; exact FsOut.noConfusion h
    | ok fsa rs =>
      simp only [hrec] at h
      cases hrest : probeGo cfg store k n (page + 1) fsa with
      | raised e => simp only [hrest] at h; exact FsOut.noConfusion h
      | ok fsb more =>
        simp only [hrest] at h
        cases h
        have h1 := processRecords_fst cfg _ _ _ _ hrec
        have h2 := probeGo_visits cfg store k n (page + 1) fsa fs1 more
          (le_trans hpage (Nat.le_succ page)) hrest
        rw [List.map_append, h1, h2, TransferHistory.list_by_page]
        have e1 : (n + 1) * k = k + n * k := by ring
        have e2 : page + 1 - 1 = page := rfl
        have e3 : (page - 1) * k + k = page * k := by
          cases page with
          | zero => exact absurd hpage (by simp)
          | succ m => simp [Nat.succ_sub_one, Nat.succ_mul]
        rw [e1, e2, List.take_add, List.drop_drop, e3]

/-! ## Concrete fixtures used by the claim theorems -/

def rootP : NPath := ⟨true, []⟩

def cfgEnforced : Config := ⟨true, true, []⟩

def cfgLax : Config := ⟨true, false, []⟩

/-- Destination is a symlink back to the source; source is a regular file. -/
def fsCyc : FS := ⟨[(rootP, .dir), (⟨true, ["src"]⟩, .dir), (⟨true, ["dst"]⟩, .dir),
  (⟨true, ["src", "a.mkv"]⟩, .file), (⟨true, ["dst", "a.mkv"]⟩, .symlink "/src/a.mkv")]⟩

/-- A dangling symlink occupies the source; destination is a regular file. -/
def fsDangling : FS := ⟨[(rootP, .dir), (⟨true, ["s"]⟩, .dir), (⟨true, ["d"]⟩, .dir),
  (⟨true, ["d", "f.mkv"]⟩, .file), (⟨true, ["s", "a.mkv"]⟩, .symlink "/gone")]⟩

/-- Two destinations exist; the first source is occupied by a dangling link,
the second source is free. -/
def fsBatch : FS := ⟨[(rootP, .dir), (⟨true, ["s"]⟩, .dir), (⟨true, ["d"]⟩, .dir),
  (⟨true, ["d", "f1"]⟩, .file), (⟨true, ["d", "f2"]⟩, .file),
  (⟨true, ["s", "a"]⟩, .symlink "/gone")]⟩

/-- A well-formed two-pair transfer-complete event over `fsBatch`. -/
def evBatch : TEvent := ⟨true, ["/s/a", "/s/b"], ["/d/f1", "/d/f2"]⟩

/-! ## C1 -/

/-- C1: the claim states that the scope filter matches on whole path
segments, so that with `enabledDirectories = ["/data/movie"]` a source in
`/data/movie2` is out of scope.  The code computes
`Path(os.path.commonprefix((x, src_dir))) == x`, a character-level string
prefix test, so `/data/movie2` *is* let through (first conjunct), exactly
the false positive the claim excludes; the second and third conjuncts check
the claim's genuine positive and negative examples, which the code does
satisfy. -/
theorem c1_scope_matches_raw_string_neighbor :
    scopeAllows [strToNPath "/data/movie"] (dirname "/data/movie2/a.mkv") = true ∧
    scopeAllows [strToNPath "/data/movie"] (dirname "/data/movie/x/a.mkv") = true ∧
    scopeAllows [strToNPath "/data/movie"] (dirname "/data/tv/a.mkv") = false := by
  decide

/-! ## C2 -/

/-- C2: the claim states that when the destination is a symlink resolving to
the source, `reconcile` returns `SkippedCycle` and mutates nothing.  In the
code the comparison `dst.resolve() == src` pits a `Path` against a `str`,
which Python evaluates to `False`, so the cycle gate can never fire.  On the
fixture the destination is a symlink resolving to the source (first two
conjuncts) and passes the destination gate (next two), yet enforced-mode
reconciliation removes the source file and installs the reverse link,
returning the `repaired` branch and completing a two-node symlink cycle. -/
theorem c2_cycle_gate_never_fires :
    fsCyc.is_symlink (strToNPath "/dst/a.mkv") = true ∧
    fsCyc.resolveD (strToNPath "/dst/a.mkv") = strToNPath "/src/a.mkv" ∧
    fsCyc.exists (strToNPath "/dst/a.mkv") = true ∧
    fsCyc.is_file (strToNPath "/dst/a.mkv") = true ∧
    _rsoftlink cfgEnforced fsCyc "/src/a.mkv" (.ofStr "/dst/a.mkv") =
      .ok ⟨[(⟨true, ["src", "a.mkv"]⟩, .symlink "/dst/a.mkv"), (rootP, .dir),
        (⟨true, ["src"]⟩, .dir), (⟨true, ["dst"]⟩, .dir),
        (⟨true, ["dst", "a.mkv"]⟩, .symlink "/src/a.mkv")]⟩ .repaired := by
  decide

/-! ## C4 -/

/-- C4: the claim states that an invalid object at the source — explicitly
including a dangling symlink — is removed under enforced mode and the
outcome is `Repaired`.  The code tests occupancy with `os.path.exists(src)`,
which follows links and returns `False` for a dangling link, so it falls
into the create branch and `os.symlink` raises `FileExistsError`: on the
fixture a dangling link occupies the source (first conjunct), the validator
rejects it (second), enforced mode is on (third), yet the call raises
instead of repairing (fourth). -/
theorem c4_dangling_symlink_raises :
    fsDangling.lookup (strToNPath "/s/a.mkv") = some (.symlink "/gone") ∧
    _is_valid_link fsDangling "/s/a.mkv" (.ofStr "/d/f.mkv") = false ∧
    cfgEnforced.enforced = true ∧
    _rsoftlink cfgEnforced fsDangling "/s/a.mkv" (.ofStr "/d/f.mkv") =
      .raised .fileExists := by
  decide

/-! ## C8 -/

/-- C8: the link validator returns true iff the source exists (following
links), the source is itself a symlink, resolving the source yields exactly
the destination, and the destination exists; failing any one condition
yields false.  The validator takes the filesystem and returns a plain
boolean, so it performs no mutation by construction. -/
theorem c8_validator_four_conditions (fs : FS) (src : String) (dst : PathArg) :
    _is_valid_link fs src dst = true ↔
      (fs.exists (strToNPath src) = true ∧
       fs.is_symlink (strToNPath src) = true ∧
       fs.resolve (strToNPath src) = some dst.toNPath ∧
       fs.exists dst.toNPath = true) := by
  simp [_is_valid_link, and_assoc]

/-! ## C10 -/

/-- C10: when the plugin's enabled flag is false the event handler returns
immediately on every event: the filesystem it returns is the one it was
given and no pair is reconciled, regardless of the success flag or the
lists. -/
theorem c10_disabled_handler_is_noop (cfg : Config) (fs : FS) (ev : TEvent)
    (h : cfg.enabled = false) :
    transfer_complete_event_handler cfg fs ev = .ok fs .disabled := by
  simp [transfer_complete_event_handler, h]

/-- C10 witness: a disabled configuration on a concrete successful event. -/
theorem c10_disabled_handler_is_noop_witness :
    transfer_complete_event_handler ⟨false, false, []⟩ ⟨[]⟩ ⟨true, ["/a"], ["/b"]⟩ =
      .ok ⟨[]⟩ .disabled :=
  c10_disabled_handler_is_noop ⟨false, false, []⟩ ⟨[]⟩ ⟨true, ["/a"], ["/b"]⟩ rfl

/-! ## C6 -/

/-- C6: for an enabled plugin, the event entry point returns without
touching the filesystem when the transfer failed, returns without touching
the filesystem when the two path lists have different lengths, and
otherwise processes the positional pairing of the two lists, producing one
reconcile outcome per pair. -/
theorem c6_event_entry_contract (cfg : Config) (fs : FS) (ev : TEvent)
    (hen : cfg.enabled = true) :
    (ev.success = false →
      transfer_complete_event_handler cfg fs ev = .ok fs .transferFailed) ∧
    (ev.success = true → ev.file_list.length ≠ ev.file_list_new.length →
      transfer_complete_event_handler cfg fs ev = .ok fs .malformedEvent) ∧
    (ev.success = true → ev.file_list.length = ev.file_list_new.length →
      ∀ fs1 os, runPairs cfg fs (ev.file_list.zip ev.file_list_new) = .ok fs1 os →
        transfer_complete_event_handler cfg fs ev = .ok fs1 (.processed os) ∧
        os.length = ev.file_list.length) := by
  refine ⟨?_, ?_, ?_⟩
  · intro hs
    simp [transfer_complete_event_handler, hen, hs]
  · intro hs hlen
    simp [transfer_complete_event_handler, hen, hs, hlen]
  · intro hs hlen fs1 os hrun
    constructor
    · simp [transfer_complete_event_handler, hen, hs, hlen, hrun]
    · rw [runPairs_length cfg _ fs fs1 os hrun]
      simp [List.length_zip, hlen]

/-- C6 witness: the spec's malformed example, a successful event whose
lists have lengths 2 and 1, aborts with the malformed outcome and leaves
the (empty) filesystem untouched. -/
theorem c6_event_entry_contract_witness :
    transfer_complete_event_handler ⟨true, false, []⟩ ⟨[]⟩ ⟨true, ["/a", "/b"], ["/x"]⟩ =
      .ok ⟨[]⟩ .malformedEvent :=
  (c6_event_entry_contract ⟨true, false, []⟩ ⟨[]⟩ ⟨true, ["/a", "/b"], ["/x"]⟩ rfl).2.1
    rfl (by decide)

/-! ## C7 -/

/-- C7: expansion of a transfer record: when the files list is exactly the
one-element list holding the record's source, expansion yields the single
request (source, destination); otherwise, when source and destination are
both existing directories, it yields one request per file, pairing each
file with destination / filename-of(file), in order; otherwise it yields no
requests and reports the record malformed. -/
theorem c7_record_expansion (fs : FS) (r : TransferRecord) :
    (r.files = [r.src] → expandRecord fs r = .requests [(r.src, .ofStr r.dest)]) ∧
    (r.files ≠ [r.src] →
      fs.is_dir (strToNPath r.src) = true → fs.is_dir (strToNPath r.dest) = true →
      expandRecord fs r = .requests (r.files.map (fun f =>
        (f, .ofPath (pathJoin (strToNPath r.dest) (npathName (strToNPath f))))))) ∧
    (r.files ≠ [r.src] →
      (fs.is_dir (strToNPath r.src) = false ∨ fs.is_dir (strToNPath r.dest) = false) →
      expandRecord fs r = .malformed) := by
  have key : (r.files.length = 1 ∧ r.files.head? = some r.src) ↔ r.files = [r.src] := by
    cases r.files with
    | nil => simp
    | cons a l =>
      cases l with
      | nil => simp
      | cons b l2 => simp
  refine ⟨?_, ?_, ?_⟩
  · intro h
    have hc : r.files.length = 1 ∧ r.files.head? = some r.src := key.mpr h
    simp only [expandRecord, if_pos hc]
  · intro h hs hd
    have hc : ¬(r.files.length = 1 ∧ r.files.head? = some r.src) := fun hc => h (key.mp hc)
    simp only [expandRecord, if_neg hc, hs, hd]
    simp
  · intro h hor
    have hc : ¬(r.files.length = 1 ∧ r.files.head? = some r.src) := fun hc => h (key.mp hc)
    rcases hor with hd | hd
    · simp only [expandRecord, if_neg hc, hd]
      simp
    · simp only [expandRecord, if_neg hc, hd]
      simp

/-- Source and destination directories of the spec's directory-expansion
example. -/
def fsDirs : FS := ⟨[(rootP, .dir), (⟨true, ["data"]⟩, .dir), (⟨true, ["data", "A"]⟩, .dir),
  (⟨true, ["lib"]⟩, .dir), (⟨true, ["lib", "A"]⟩, .dir)]⟩

/-- The spec's directory-expansion example record. -/
def recDirs : TransferRecord := ⟨"/data/A", "/lib/A", ["/data/A/1.mkv", "/data/A/2.mkv"], true⟩

/-- C7 witness: the spec's example record expands to the two expected
requests. -/
theorem c7_record_expansion_witness :
    expandRecord fsDirs recDirs = .requests
      [("/data/A/1.mkv", .ofPath (strToNPath "/lib/A/1.mkv")),
       ("/data/A/2.mkv", .ofPath (strToNPath "/lib/A/2.mkv"))] := by
  have h := (c7_record_expansion fsDirs recDirs).2.1 (by decide) (by decide) (by decide)
  rw [h]
  decide

/-! ## C3 -/

/-- C3 counterexample: the claim states an I/O-level failure in one request
is confined to that request and every sibling in the batch is still
processed.  The code has no exception handling, so the `FileExistsError`
raised while reconciling the first pair of this well-formed two-pair event
propagates and aborts the handler; the second conjunct shows the sibling
pair, had it been processed, would have created its link. -/
theorem c3_batch_abort_counterexample :
    transfer_complete_event_handler cfgLax fsBatch evBatch = .raised .fileExists ∧
    _rsoftlink cfgLax fsBatch "/s/b" (.ofStr "/d/f2") =
      .ok (fsBatch.set (strToNPath "/s/b") (.symlink "/d/f2")) .created := by
  decide

/-- C3 (amended): a filesystem failure raised while reconciling one pair of
a well-formed, enabled, successful event propagates out of `_rsoftlink`
uncaught and aborts the whole handler invocation: pairs before the failing
one keep their effects, pairs after it are never processed, and the handler
surfaces the raised error instead of a per-request failure outcome. -/
theorem c3_failure_aborts_batch (cfg : Config) (fs fs1 : FS) (ev : TEvent)
    (ps qs : List (String × String)) (s d : String) (os : List Outcome) (e : IOErr)
    (hen : cfg.enabled = true) (hs : ev.success = true)
    (hlen : ev.file_list.length = ev.file_list_new.length)
    (hzip : ev.file_list.zip ev.file_list_new = ps ++ (s, d) :: qs)
    (hok : runPairs cfg fs ps = .ok fs1 os)
    (hraise : _rsoftlink cfg fs1 s (.ofStr d) = .raised e) :
    transfer_complete_event_handler cfg fs ev = .raised e := by
  have h := runPairs_append_raised cfg ps fs fs1 os s d qs e hok hraise
  simp [transfer_complete_event_handler, hen, hs, hlen, hzip, h]

/-- C3 witness: the amended statement instantiated on the two-pair fixture,
where the first pair raises `FileExistsError` on a dangling source link. -/
theorem c3_failure_aborts_batch_witness :
    transfer_complete_event_handler cfgLax fsBatch evBatch = .raised .fileExists :=
  c3_failure_aborts_batch cfgLax fsBatch fsBatch evBatch [] [("/s/b", "/d/f2")]
    "/s/a" "/d/f1" [] .fileExists rfl rfl rfl (by decide) rfl (by decide)

/-! ## C9 -/

/-- A status-true single-file record whose source is occupied by the
dangling link of `fsBatch`: reconciling it raises. -/
def recBad : TransferRecord := ⟨"/s/a", "/d/f1", ["/s/a"], true⟩

/-- A status-true single-file record whose source is free in `fsBatch`. -/
def recGood : TransferRecord := ⟨"/s/b", "/d/f2", ["/s/b"], true⟩

/-- C9 counterexample: the claim states that every status-true record in
the snapshot is expanded and passed to reconcile.  Both records of this
store are status-true, but the first raises `FileExistsError` during
reconciliation and the uncaught exception aborts the scan, so the second
record is never visited, even though on its own it would have been handled
(last conjunct). -/
theorem c9_scan_abort_counterexample :
    recBad.status = true ∧ recGood.status = true ∧
    _active_probe cfgLax [recBad, recGood] 30 fsBatch = .raised .fileExists ∧
    processRecord cfgLax fsBatch recGood =
      .ok (fsBatch.set (strToNPath "/s/b") (.symlink "/d/f2")) (.handled [.created]) := by
  decide

/-- C9 (amended): the scan driver always terminates (the page loop is
bounded by the count snapshot), and whenever a scan returns without an
uncaught filesystem error, the records it visited — expanding each and
passing every resulting request to reconcile — are exactly the status-true
records present at the count snapshot, for any store page size of at least
one; a record whose reconciliation raises aborts the scan and later records
are not visited in that run. -/
theorem c9_scan_visits_all (cfg : Config) (store : List TransferRecord) (k : Nat)
    (fs fs1 : FS) (out : List (TransferRecord × RecordResult))
    (hk : 1 ≤ k) (h : _active_probe cfg store k fs = .ok fs1 out) :
    out.map Prod.fst = store.filter (fun r => decide (r.status = true)) := by
  have h2 := probeGo_visits cfg store k (TransferHistory.count store true) 1 fs fs1 out
    (le_refl 1) h
  rw [h2, TransferHistory.count]
  simp only [Nat.sub_self, Nat.zero_mul, List.drop_zero]
  exact List.take_of_length_le (Nat.le_mul_of_pos_right _ hk)

/-- A store holding one status-true record that is out of the configured
scope, so a scan over it succeeds without mutating anything. -/
def recOut : TransferRecord := ⟨"/y/a.mkv", "/z/a.mkv", ["/y/a.mkv"], true⟩

/-- A configuration whose scope excludes `recOut`. -/
def cfgScoped : Config := ⟨true, false, [strToNPath "/x"]⟩

/-- A filesystem holding only the root directory. -/
def fsRoot : FS := ⟨[(rootP, .dir)]⟩

/-- C9 witness: a completed scan over a one-record store visited exactly
the status-true records of the store. -/
theorem c9_scan_visits_all_witness :
    List.map Prod.fst [(recOut, RecordResult.handled [Outcome.skippedOutOfScope])] =
      [recOut].filter (fun r => decide (r.status = true)) :=
  c9_scan_visits_all cfgScoped [recOut] 30 fsRoot fsRoot
    [(recOut, RecordResult.handled [Outcome.skippedOutOfScope])] (by decide) (by decide)

/-! ## C5 -/

/-- The directory component `/a` of the source is occupied by a regular
file, while the destination exists and the source itself is absent. -/
def fsBlocked : FS := ⟨[(rootP, .dir), (⟨true, ["a"]⟩, .file), (⟨true, ["d"]⟩, .dir),
  (⟨true, ["d", "f.mkv"]⟩, .file)]⟩

/-- C5 counterexample: the claim quantifies over every pair where the
destination is an existing regular file, the source does not exist and the
source is in scope, and asserts the first call yields `Created`.  Here all
three preconditions hold (first three conjuncts), but `os.makedirs` on the
source's directory hits the regular file `/a` and raises `FileExistsError`,
so the first call raises instead of creating. -/
theorem c5_blocked_parent_counterexample :
    fsBlocked.lookup (strToNPath "/d/f.mkv") = some .file ∧
    fsBlocked.lookup (strToNPath "/a/b.mkv") = none ∧
    scopeAllows cfgLax.enabled_dirs (dirname "/a/b.mkv") = true ∧
    _rsoftlink cfgLax fsBlocked "/a/b.mkv" (.ofStr "/d/f.mkv") = .raised .fileExists := by
  decide

/-- C5 (amended): for every pair where the destination is (lstat-wise) a
regular file, nothing occupies the source, the source is in scope, every
ancestor of the source's directory is absent or a directory (so directory
creation succeeds), the source path is not itself one of those ancestors,
and the destination string parses stably (its parsed form re-renders and
re-parses to itself), calling reconcile twice yields `Created` then
`AlreadyValid`, and the filesystem after the second call is the filesystem
after the first: the second call performs no mutation. -/
theorem c5_idempotent_create (cfg : Config) (fs : FS) (src dst : String)
    (hscope : scopeAllows cfg.enabled_dirs (dirname src) = true)
    (hdst : fs.lookup (strToNPath dst) = some .file)
    (hsrc : fs.lookup (strToNPath src) = none)
    (hanc : ∀ p ∈ ancestorChain (strToNPath (dirname src)),
      fs.lookup p = none ∨ fs.lookup p = some .dir)
    (hsp : strToNPath src ∉ ancestorChain (strToNPath (dirname src)))
    (hround : strToNPath (npathToString (strToNPath dst)) = strToNPath dst) :
    ∃ fs1, _rsoftlink cfg fs src (.ofStr dst) = .ok fs1 .created ∧
      _rsoftlink cfg fs1 src (.ofStr dst) = .ok fs1 .alreadyValid := by
  obtain ⟨fsm, heqm, hall, hout, hor⟩ :=
    mkdirsGo_ok (ancestorChain (strToNPath (dirname src))) fs hanc
  have hdne : ∀ p ∈ ancestorChain (strToNPath (dirname src)), strToNPath dst ≠ p := by
    intro p hp he
    rcases hanc p hp with h | h <;> rw [← he, hdst] at h <;> simp at h
  have hsne : ∀ p ∈ ancestorChain (strToNPath (dirname src)), strToNPath src ≠ p := by
    intro p hp he
    exact hsp (by rw [he]; exact hp)
  have hdstm : fsm.lookup (strToNPath dst) = some .file := by
    rw [hout _ hdne, hdst]
  have hsrcm : fsm.lookup (strToNPath src) = none := by
    rw [hout _ hsne, hsrc]
  have hne : strToNPath dst ≠ strToNPath src := by
    intro he
    have h := hdst
    rw [he, hsrc] at h
    exact Option.noConfusion h
  refine ⟨fsm.set (strToNPath src) (.symlink (npathToString (strToNPath dst))), ?_, ?_⟩
  · simp [_rsoftlink, PathArg.toNPath, hscope, exists_of_file hdst, is_file_of_file hdst,
      is_symlink_of_file hdst, os_makedirs, heqm, exists_of_none hsrcm, os_symlink, hsrcm]
  · have hentry : (fsm.set (strToNPath src)
        (.symlink (npathToString (strToNPath dst)))).lookup (strToNPath src) =
        some (.symlink (npathToString (strToNPath dst))) := by
      rw [lookup_set, if_pos rfl]
    have hdst1 : (fsm.set (strToNPath src)
        (.symlink (npathToString (strToNPath dst)))).lookup (strToNPath dst) =
        some .file := by
      rw [lookup_set, if_neg hne, hdstm]
    have hdtarget : (fsm.set (strToNPath src)
        (.symlink (npathToString (strToNPath dst)))).lookup
          (strToNPath (npathToString (strToNPath dst))) = some .file := by
      rw [hround]
      exact hdst1
    have hall1 : ∀ p ∈ ancestorChain (strToNPath (dirname src)),
        (fsm.set (strToNPath src)
          (.symlink (npathToString (strToNPath dst)))).lookup p = some .dir := by
      intro p hp
      rw [lookup_set, if_neg (fun he => hsne p hp he.symm), hall p hp]
    have hmk1 := mkdirsGo_noop _ _ hall1
    have hex1 := exists_link_to_file hentry hdtarget
    have hres1 : (fsm.set (strToNPath src)
        (.symlink (npathToString (strToNPath dst)))).resolve (strToNPath src) =
        some (strToNPath dst) := by
      rw [resolve_link_to_file hentry hdtarget, hround]
    have hvalid : _is_valid_link (fsm.set (strToNPath src)
        (.symlink (npathToString (strToNPath dst)))) src (.ofPath (strToNPath dst)) =
        true := by
      simp [_is_valid_link, PathArg.toNPath, hex1, is_symlink_of_link hentry, hres1,
        exists_of_file hdst1]
    simp [_rsoftlink, PathArg.toNPath, hscope, exists_of_file hdst1, is_file_of_file hdst1,
      is_symlink_of_file hdst1, os_makedirs, hmk1, hex1, hvalid]

/-- Destination file and source directory both in place, source free: the
normal creation scenario. -/
def fsPlain : FS := ⟨[(rootP, .dir), (⟨true, ["s"]⟩, .dir), (⟨true, ["d"]⟩, .dir),
  (⟨true, ["d", "f.mkv"]⟩, .file)]⟩

/-- C5 witness: the amended idempotence statement instantiated on the
normal creation scenario. -/
theorem c5_idempotent_create_witness :
    ∃ fs1, _rsoftlink cfgLax fsPlain "/s/b.mkv" (.ofStr "/d/f.mkv") = .ok fs1 .created ∧
      _rsoftlink cfgLax fs1 "/s/b.mkv" (.ofStr "/d/f.mkv") = .ok fs1 .alreadyValid :=
  c5_idempotent_create cfgLax fsPlain "/s/b.mkv" "/d/f.mkv" (by decide) (by decide)
    (by decide) (by decide) (by decide) (by decide)
